import Mathlib

/-!
Verification development for the `Tone.Time` expression engine of the
Tonejs/build repository (`src/dev/Tone/core/Time.js`).

The JavaScript source is shallowly embedded here:
* JS numbers are modelled by `JSNum` (exact rationals plus `NaN` and the two
  infinities); JS runtime values flowing through `Tone.Time` are modelled by
  `JSVal` (a number, a string, an array of numbers, or `undefined`).
* `Tone.Time` instances are modelled by `TimeVal` (the `_value`, `_units` and
  `_expressions` fields); the `_expressions` array is the `ChainList`.
* The tokenizer (`_tokenize`), the recursive-descent parser
  (`_parseExpression` / `_parseUnary` / `_parsePrimary`), the tree
  materializer (`_traverseTree` / `_parseTree`) and the evaluator
  (`_evalValue` / `eval`) are each translated function by function.
Fallible JS code (throw) is modelled with `Except String`.
-/

/-- A JavaScript number: an exact rational (JS doubles are not modelled
bit-for-bit, but every arithmetic result reached in this development is exact
in ℚ), `NaN`, `Infinity` or `-Infinity`. -/
inductive JSNum where
  | fin (q : ℚ)
  | nan
  | inf
  | negInf
deriving DecidableEq, Repr

/-- JS addition on numbers. -/
def numAdd : JSNum → JSNum → JSNum
  | .fin a, .fin b => .fin (a + b)
  | .nan, _ => .nan
  | _, .nan => .nan
  | .inf, .negInf => .nan
  | .negInf, .inf => .nan
  | .inf, _ => .inf
  | _, .inf => .inf
  | .negInf, _ => .negInf
  | _, .negInf => .negInf

/-- JS unary minus on numbers. -/
def numNeg : JSNum → JSNum
  | .fin a => .fin (-a)
  | .nan => .nan
  | .inf => .negInf
  | .negInf => .inf

/-- JS subtraction on numbers. -/
def numSub (a b : JSNum) : JSNum := numAdd a (numNeg b)

/-- JS multiplication on numbers. -/
def numMul : JSNum → JSNum → JSNum
  | .fin a, .fin b => .fin (a * b)
  | .nan, _ => .nan
  | _, .nan => .nan
  | .inf, .inf => .inf
  | .inf, .negInf => .negInf
  | .negInf, .inf => .negInf
  | .negInf, .negInf => .inf
  | .inf, .fin b => if b = 0 then .nan else if 0 < b then .inf else .negInf
  | .fin a, .inf => if a = 0 then .nan else if 0 < a then .inf else .negInf
  | .negInf, .fin b => if b = 0 then .nan else if 0 < b then .negInf else .inf
  | .fin a, .negInf => if a = 0 then .nan else if 0 < a then .negInf else .inf

/-- JS division on numbers.  The zero divisor here is JS positive zero
(negative zero is not distinguished in this model; no modelled code path
produces `-0`). -/
def numDiv : JSNum → JSNum → JSNum
  | .fin a, .fin b =>
      if b = 0 then (if a = 0 then .nan else if 0 < a then .inf else .negInf)
      else .fin (a / b)
  | .nan, _ => .nan
  | _, .nan => .nan
  | .inf, .inf => .nan
  | .inf, .negInf => .nan
  | .negInf, .inf => .nan
  | .negInf, .negInf => .nan
  | .inf, .fin b => if 0 ≤ b then .inf else .negInf
  | .negInf, .fin b => if 0 ≤ b then .negInf else .inf
  | .fin _, .inf => .fin 0
  | .fin _, .negInf => .fin 0

/-- A JavaScript runtime value as used by `Tone.Time`: a number, a string
(such as the `"now"` default sentinel), an array of numbers (a parsed
transport-position triple), or `undefined`. -/
inductive JSVal where
  | num (n : JSNum)
  | str (s : String)
  | arr (l : List JSNum)
  | undefJS
deriving DecidableEq, Repr

/-- Digit-list to natural number (`"123"` components of the matched tokens). -/
def digitsVal (l : List Char) : ℕ :=
  l.foldl (fun a c => a * 10 + (c.toNat - 48)) 0

/-- Parse `digits` or `digits.digits` or `.digits` or `digits.` as an exact
rational; `none` when the shape is not a plain decimal numeral.  Used to model
JS `Number(...)` string coercion on the strings this code can produce. -/
def decString (l : List Char) : Option ℚ :=
  let ip := l.takeWhile Char.isDigit
  let r := l.drop ip.length
  match r with
  | [] => if ip = [] then none else some (digitsVal ip)
  | '.' :: fr =>
      let fp := fr.takeWhile Char.isDigit
      if fr.drop fp.length = [] then
        (if ip = [] ∧ fp = [] then none
         else some ((digitsVal ip : ℚ) + (digitsVal fp : ℚ) / (10 ^ fp.length)))
      else none
  | _ => none

/-- JS `Number(string)` coercion, restricted to the string shapes reachable
here (plain decimal numerals with optional sign; anything else, such as the
`"now"` sentinel, coerces to `NaN`; exponent/hex/`"Infinity"` forms are never
produced by this code). -/
def strToNumber (s : String) : JSNum :=
  let l := ((s.data.dropWhile Char.isWhitespace).reverse.dropWhile
      Char.isWhitespace).reverse
  match l with
  | [] => .fin 0
  | '-' :: r => (match decString r with | some q => .fin (-q) | none => .nan)
  | '+' :: r => (match decString r with | some q => .fin q | none => .nan)
  | _ => (match decString l with | some q => .fin q | none => .nan)

/-- JS `ToNumber` on the values of this model.  An array coerces through its
joined string: `[] → ""` is `0`, a one-element array is its element, a longer
array gives a non-numeric string, hence `NaN`. -/
def toNumber : JSVal → JSNum
  | .num n => n
  | .undefJS => .nan
  | .str s => strToNumber s
  | .arr [] => .fin 0
  | .arr [x] => x
  | .arr _ => .nan

/-- Render a rational the way this model prints JS numbers.  Integers match JS
exactly; for non-integers JS prints a decimal expansion while this model
prints `num/den` — the difference is only observable through string
concatenation of a non-integer number, which no modelled code path reaches. -/
def ratToString (q : ℚ) : String :=
  if q.den = 1 then toString q.num else toString q.num ++ "/" ++ toString q.den

/-- JS `ToString` on numbers. -/
def numToString : JSNum → String
  | .nan => "NaN"
  | .inf => "Infinity"
  | .negInf => "-Infinity"
  | .fin q => ratToString q

/-- JS `ToString` on the values of this model (arrays join with `","`). -/
def jsToString : JSVal → String
  | .str s => s
  | .num n => numToString n
  | .undefJS => "undefined"
  | .arr l => String.intercalate "," (l.map numToString)

/-- JS `+`: string concatenation when either operand is a string or an array
(arrays convert to primitive strings), numeric addition otherwise. -/
def jsAdd (a b : JSVal) : JSVal :=
  match a, b with
  | .str _, _ => .str (jsToString a ++ jsToString b)
  | _, .str _ => .str (jsToString a ++ jsToString b)
  | .arr _, _ => .str (jsToString a ++ jsToString b)
  | _, .arr _ => .str (jsToString a ++ jsToString b)
  | _, _ => .num (numAdd (toNumber a) (toNumber b))

/-- JS `-` (always numeric). -/
def jsSub (a b : JSVal) : JSVal := .num (numSub (toNumber a) (toNumber b))

/-- JS `*` (always numeric). -/
def jsMul (a b : JSVal) : JSVal := .num (numMul (toNumber a) (toNumber b))

/-- JS `/` (always numeric). -/
def jsDiv (a b : JSVal) : JSVal := .num (numDiv (toNumber a) (toNumber b))

/-- JS property read `v[i]`: array indexing (out of range gives `undefined`),
string indexing gives a one-character string, and a number has no index
properties.  (`undefined[i]` would throw in JS, but `_value` is never
`undefined` in this code, so that branch is unreachable.) -/
def jsIndex : JSVal → ℕ → JSVal
  | .arr l, i => (match l.get? i with | some n => .num n | none => .undefJS)
  | .str s, i =>
      (match s.data.get? i with | some c => .str (String.mk [c]) | none => .undefJS)
  | _, _ => .undefJS

/-- A `Tone.Time` instance: the `_value`, `_units` (a JS string or
`undefined`), and `_expressions` fields.  Each `_expressions` entry
`{type, value}` is a pair of the operator string pushed by `_pushExpr`
(possibly `undefined`) and the operand `Tone.Time`. -/
inductive TimeVal where
  | mk (value : JSVal) (units : Option String)
       (exprs : List (Option String × TimeVal))

/-- The ambient `Tone.Transport` singleton, when one is attached:
`bpm.value`, `PPQ` and `timeSignature`. -/
structure TransportCtx where
  bpm : ℚ
  PPQ : ℚ
  timeSignature : ℚ
deriving DecidableEq, Repr

/-- `Tone.Transport` is either attached or absent. -/
abbrev Ctx := Option TransportCtx

/-- `Tone.Time.prototype._beatInSeconds`: `60 / Tone.Transport.bpm.value`
when a transport is attached, else `0`. -/
def beatInSeconds : Ctx → JSNum
  | some t => numDiv (.fin 60) (.fin t.bpm)
  | none => .fin 0

/-- `Tone.Time.prototype._tickInSeconds`: `this._beatInSeconds() /
Tone.Transport.PPQ` when a transport is attached, else `0`. -/
def tickInSeconds : Ctx → JSNum
  | some t => numDiv (beatInSeconds (some t)) (.fin t.PPQ)
  | none => .fin 0

/-- `Tone.Time.prototype._timeSignature`: `Tone.Transport.timeSignature`
when a transport is attached, else `0`. -/
def timeSignatureOf : Ctx → JSNum
  | some t => .fin t.timeSignature
  | none => .fin 0

/-- `Tone.Time.prototype._evalValue` (the prototype assigns this method twice
with textually identical bodies; the later assignment wins and both are this
function).  The switch runs over `this._units`; a tag matching no case falls
through to `return 0`.  In the `Measure` case the source reads `beatTime`,
a `var` that is only assigned inside the `TransportTime` case: by JS `var`
hoisting it is `undefined` there, which this model renders as `JSVal.undefJS`.
The `Measure` case also indexes `this._value[0]`. -/
def evalValueFn (value : JSVal) (units : Option String) (ctx : Ctx) : JSVal :=
  if units = some "s" then value
  else if units = some "m" then
    jsMul (jsMul (.num (timeSignatureOf ctx)) .undefJS) (jsIndex value 0)
  else if units = some "n" then
    jsMul (.num (beatInSeconds ctx)) value
  else if units = some "t" then
    jsMul (jsMul (.num (beatInSeconds ctx)) value) (.num (.fin (2 / 3)))
  else if units = some "i" then
    jsMul value (.num (tickInSeconds ctx))
  else if units = some "hz" then
    jsDiv (.num (.fin 1)) value
  else if units = some "tr" then
    let beatTime := beatInSeconds ctx
    let bars := jsMul (jsMul (.num (timeSignatureOf ctx)) (.num beatTime)) (jsIndex value 0)
    let beats := jsMul (.num beatTime) (jsIndex value 1)
    let sixteenths := jsDiv (jsMul (.num beatTime) (jsIndex value 2)) (.num (.fin 4))
    jsAdd (jsAdd bars beats) sixteenths
  else .num (.fin 0)

/-- Modelled from the spec: `Tone.prototype.defaultArg` lives in
`Tone/core/Tone.js`, which is not under `src/`; per the spec it returns the
fallback exactly when the given argument is `undefined` ("referenceNow if
supplied, else a fresh now"; "defaulting to the Now sentinel when val is
undefined"). -/
def defaultArg (given : Option ℚ) (fallback : ℚ) : ℚ := given.getD fallback

/-- One iteration of the `for`-loop of `Tone.Time.prototype.eval`: the
`switch (expr.type)`, in source order (`Add`, `Subtract`, `Multiply`,
`Divide`, `Now`, `Quantize`); a type matching no case leaves `val` unchanged.
Arithmetic cases evaluate the operand with `expr.value.eval()` — no
`referenceNow` argument, hence `none` — while the `Now` case adds
`this.defaultArg(now, this.now())` (the ambient clock reading is the `fresh`
parameter) without evaluating the operand.  `evalOp` is the recursive
evaluator applied to the operand; the returned pair carries the operand state
after its own `eval`, so receiver non-mutation is provable, not assumed. -/
def evalSwitch (evalOp : TimeVal → Ctx → Option ℚ → ℚ → JSVal × TimeVal)
    (ctx : Ctx) (now : Option ℚ) (fresh : ℚ)
    (val : JSVal) (ty : Option String) (operand : TimeVal) : JSVal × TimeVal :=
  if ty = some "+" then (let r := evalOp operand ctx none fresh; (jsAdd val r.1, r.2))
  else if ty = some "-" then (let r := evalOp operand ctx none fresh; (jsSub val r.1, r.2))
  else if ty = some "*" then (let r := evalOp operand ctx none fresh; (jsMul val r.1, r.2))
  else if ty = some "/" then (let r := evalOp operand ctx none fresh; (jsDiv val r.1, r.2))
  else if ty = some "now" then
    (jsAdd val (.num (.fin (defaultArg now fresh))), operand)
  else if ty = some "@" then (let r := evalOp operand ctx none fresh; (jsDiv val r.1, r.2))
  else (val, operand)

/-- `Tone.Time.prototype.eval(now)`, with the receiver state threaded
through explicitly.  The `fuel` argument only bounds the recursion depth of
the embedding (the JS recursion has no such bound); every theorem below
either quantifies over `fuel` or states an exact output that could not be
produced by the fuel-exhaustion sentinel. -/
def evalGo : ℕ → TimeVal → Ctx → Option ℚ → ℚ → JSVal × TimeVal
  | 0, t, _, _, _ => (.undefJS, t)
  | fuel + 1, .mk v u exprs, ctx, now, fresh =>
      let r := exprs.foldl
        (fun acc e =>
          let step := evalSwitch (evalGo fuel) ctx now fresh acc.1 e.1 e.2
          (step.1, acc.2 ++ [(e.1, step.2)]))
        (evalValueFn v u ctx, [])
      (r.1, .mk v u r.2)

/-- The value returned by `Tone.Time.prototype.eval(now)`: `now` is the
optional `referenceNow` argument and `fresh` the ambient `this.now()` clock
reading.  The fixed fuel `20` exceeds the nesting depth of every concrete
value used below. -/
def evalTV (t : TimeVal) (ctx : Ctx) (now : Option ℚ) (fresh : ℚ) : JSVal :=
  (evalGo 20 t ctx now fresh).1

/-- Modelled from the spec: the JS default-argument idiom on the constructor
value (`this.defaultArg(val, Tone.Time.Type.Now)` with `defaultArg` from the
absent `Tone/core/Tone.js`): the fallback is used exactly when the value is
`undefined`. -/
def defaultArgVal (given : Option JSVal) (fallback : JSVal) : JSVal :=
  given.getD fallback

/-- The `Tone.Time(val, units)` constructor (lines 14-49): `_expressions`
starts empty, `_units` is stored as given, `_value` is `val` defaulted to the
`Tone.Time.Type.Now` sentinel string `"now"`.  The `_parseExpr(val)` call in
the `units` branch is commented out in the source, so no tokenizing or
parsing happens here. -/
def mkTime (val : Option JSVal) (units : Option String) : TimeVal :=
  .mk (defaultArgVal val (.str "now")) units []

/-- `Tone.Time.prototype._pushExpr(val, type, units)`: coerce a non-`Time`
value through the constructor, then append `{type, value}` to
`_expressions` and return the receiver. -/
def pushExpr (t : TimeVal) (val : TimeVal ⊕ JSVal) (ty : Option String)
    (units : Option String) : TimeVal :=
  let v : TimeVal :=
    match val with
    | .inl tv => tv
    | .inr jv => mkTime (some jv) units
  match t with
  | .mk tv tu tex => .mk tv tu (tex ++ [(ty, v)])

/-- `Tone.Time.prototype.add`. -/
def addT (t : TimeVal) (val : TimeVal ⊕ JSVal) (units : Option String) : TimeVal :=
  pushExpr t val (some "+") units

/-- `Tone.Time.prototype.sub`. -/
def subT (t : TimeVal) (val : TimeVal ⊕ JSVal) (units : Option String) : TimeVal :=
  pushExpr t val (some "-") units

/-- `Tone.Time.prototype.mult`. -/
def multT (t : TimeVal) (val : TimeVal ⊕ JSVal) (units : Option String) : TimeVal :=
  pushExpr t val (some "*") units

/-- `Tone.Time.prototype.div`. -/
def divT (t : TimeVal) (val : TimeVal ⊕ JSVal) (units : Option String) : TimeVal :=
  pushExpr t val (some "/") units

/-- `Tone.Time.prototype.quantize`. -/
def quantizeT (t : TimeVal) (val : TimeVal ⊕ JSVal) (units : Option String) : TimeVal :=
  pushExpr t val (some "@") units

/-- `Tone.Time.prototype.fromNow`: `_pushExpr(0, Tone.Time.Type.Now)`. -/
def fromNowT (t : TimeVal) : TimeVal :=
  pushExpr t (.inr (.num (.fin 0))) (some "now") none

/-- A token produced by `_tokenize`: `{group, name, precedence, value}`.
`name` is the unit or operator string (`undefined` for glue tokens) and
`precedence` is only set on binary-operator patterns. -/
structure Token where
  group : String
  name : Option String
  precedence : Option Int
  value : List Char
deriving DecidableEq, Repr

/-- One entry of the `Tone.Time._Expressions` table: its group, the `name`
and `precedence` attached to produced tokens, and the anchored regexp as a
prefix-matching function returning `match[0]`. -/
structure Pat where
  group : String
  name : Option String
  precedence : Option Int
  matcher : List Char → Option (List Char)

/-- Anchored match for `/^\d+X/i` (`X` the lowercase unit suffix): one or
more digits followed by the suffix, case-insensitively. -/
def matchValUnit (suffix : List Char) (l : List Char) : Option (List Char) :=
  let ds := l.takeWhile Char.isDigit
  if ds = [] then none
  else
    let r := (l.drop ds.length).take suffix.length
    if r.map Char.toLower = suffix then some (ds ++ r) else none

/-- Anchored match for `/^\d/`: a single digit. -/
def matchS (l : List Char) : Option (List Char) :=
  match l with
  | c :: _ => if c.isDigit then some [c] else none
  | [] => none

/-- Anchored match for a single-character pattern such as `/^\(/` or
`/^\+/`. -/
def matchLit (c : Char) (l : List Char) : Option (List Char) :=
  match l with
  | x :: _ => if x = c then some [c] else none
  | [] => none

/-- Greedy match for `\d+(\.\d+)?` (the number inside the transport
pattern), returning the matched characters and the rest. -/
def matchDec (l : List Char) : Option (List Char × List Char) :=
  let ds := l.takeWhile Char.isDigit
  if ds = [] then none
  else
    let rest := l.drop ds.length
    match rest with
    | '.' :: r2 =>
        let fs := r2.takeWhile Char.isDigit
        if fs = [] then some (ds, rest)
        else some (ds ++ '.' :: fs, r2.drop fs.length)
    | _ => some (ds, rest)

/-- Anchored match for the transport pattern
`/^(\d+(\.\d+)?\:){1,2}(\d+(\.\d+)?)?/`: one or two `number:` groups
(greedy, as the regexp engine backtracks) followed by an optional number. -/
def matchTr (l : List Char) : Option (List Char) :=
  match matchDec l with
  | none => none
  | some (d1, r1) =>
    match r1 with
    | ':' :: r2 =>
        let second : List Char × List Char :=
          match matchDec r2 with
          | some (d2, rr) =>
              (match rr with
               | ':' :: rr2 => (d2 ++ [':'], rr2)
               | _ => ([], r2))
          | none => ([], r2)
        let final : List Char :=
          match matchDec second.2 with
          | some (d3, _) => d3
          | none => []
        some (d1 ++ ':' :: (second.1 ++ final))
    | _ => none

/-- `Tone.Time._Expressions`, flattened in the JS object-iteration order used
by `getNextToken`: the `value` group (`n`, `t`, `m`, `i`, `hz`, `tr`, `s`),
then `glue`, then `binary` (`+`, `-`, `*`, `/`, `@`), then `unary` (`neg`,
`now`).  Note the source's divide entry carries the regexp `/^\*/`, textually
identical to multiply's, and the unary patterns duplicate the binary `-` and
`+` patterns. -/
def patternList : List Pat :=
  [ { group := "value", name := some "n", precedence := none,
      matcher := matchValUnit ['n'] },
    { group := "value", name := some "t", precedence := none,
      matcher := matchValUnit ['t'] },
    { group := "value", name := some "m", precedence := none,
      matcher := matchValUnit ['m'] },
    { group := "value", name := some "i", precedence := none,
      matcher := matchValUnit ['i'] },
    { group := "value", name := some "hz", precedence := none,
      matcher := matchValUnit ['h', 'z'] },
    { group := "value", name := some "tr", precedence := none,
      matcher := matchTr },
    { group := "value", name := some "s", precedence := none,
      matcher := matchS },
    { group := "glue", name := none, precedence := none,
      matcher := matchLit '(' },
    { group := "glue", name := none, precedence := none,
      matcher := matchLit ')' },
    { group := "glue", name := none, precedence := none,
      matcher := matchLit ',' },
    { group := "binary", name := some "+", precedence := some 1,
      matcher := matchLit '+' },
    { group := "binary", name := some "-", precedence := some 1,
      matcher := matchLit '-' },
    { group := "binary", name := some "*", precedence := some 0,
      matcher := matchLit '*' },
    { group := "binary", name := some "/", precedence := some 0,
      matcher := matchLit '*' },
    { group := "binary", name := some "@", precedence := some 0,
      matcher := matchLit '@' },
    { group := "unary", name := some "-", precedence := none,
      matcher := matchLit '-' },
    { group := "unary", name := some "now", precedence := none,
      matcher := matchLit '+' } ]

/-- The pattern scan of `getNextToken`: first matching entry wins. -/
def firstTok : List Pat → List Char → Option Token
  | [], _ => none
  | p :: ps, e =>
    match p.matcher e with
    | some m => some { group := p.group, name := p.name,
                       precedence := p.precedence, value := m }
    | none => firstTok ps e

/-- `getNextToken` from `Tone.Time.prototype._tokenize`: scan the expression
table in order and throw `SyntaxError("Unexpected token " + expr)` when
nothing matches. -/
def getNextToken (e : List Char) : Except String Token :=
  match firstTok patternList e with
  | some t => .ok t
  | none => .error ("Unexpected token " ++ String.mk e)

/-- JS `String.prototype.trim`. -/
def trimChars (l : List Char) : List Char :=
  ((l.dropWhile Char.isWhitespace).reverse.dropWhile Char.isWhitespace).reverse

/-- The `while (expr.length > 0)` loop of `_tokenize`: trim, take the next
token, drop `token.value.length` characters and continue.  A thrown
`SyntaxError` aborts the whole loop, so no partial token list survives.  The
fuel exceeds the iteration count (each iteration consumes at least one
character), so the `"InternalFuel"` branch is unreachable from `tokenize`. -/
def tokenizeAux : ℕ → List Char → Except String (List Token)
  | 0, _ => .error "InternalFuel"
  | fuel + 1, expr =>
    match expr with
    | [] => .ok []
    | _ :: _ =>
      let e := trimChars expr
      match getNextToken e with
      | .error m => .error m
      | .ok tok =>
        match tokenizeAux fuel (e.drop tok.value.length) with
        | .error m => .error m
        | .ok ts => .ok (tok :: ts)

/-- `Tone.Time.prototype._tokenize` (the produced `next`/`peek` cursor is
modelled by threading the remaining token list through the parser). -/
def tokenize (s : String) : Except String (List Token) :=
  tokenizeAux (s.length + 1) s.data

/-- JS `parseInt` restricted to the argument shapes reachable here: optional
whitespace and sign followed by digits (radix prefixes are never produced by
the tokenizer). -/
def parseIntJS (l : List Char) : JSNum :=
  let l1 := l.dropWhile Char.isWhitespace
  match l1 with
  | '-' :: r =>
      (let ds := r.takeWhile Char.isDigit
       if ds = [] then .nan else .fin (-(digitsVal ds : ℚ)))
  | '+' :: r =>
      (let ds := r.takeWhile Char.isDigit
       if ds = [] then .nan else .fin (digitsVal ds))
  | _ =>
      (let ds := l1.takeWhile Char.isDigit
       if ds = [] then .nan else .fin (digitsVal ds))

/-- The longest decimal prefix `\d*(\.\d*)?` with at least one digit, as a
rational (`parseFloat` keeps the valid prefix and ignores what follows). -/
def decPrefixVal (l : List Char) : Option ℚ :=
  let ip := l.takeWhile Char.isDigit
  let r := l.drop ip.length
  match r with
  | '.' :: fr =>
      let fp := fr.takeWhile Char.isDigit
      if ip = [] ∧ fp = [] then none
      else some ((digitsVal ip : ℚ) + (digitsVal fp : ℚ) / (10 ^ fp.length))
  | _ => if ip = [] then none else some (digitsVal ip)

/-- JS `parseFloat` restricted to the argument shapes reachable here
(components of a split transport literal: decimal numerals or the empty
string, which gives `NaN`). -/
def parseFloatJS (l : List Char) : JSNum :=
  let l1 := l.dropWhile Char.isWhitespace
  match l1 with
  | '-' :: r => (match decPrefixVal r with | some q => .fin (-q) | none => .nan)
  | '+' :: r => (match decPrefixVal r with | some q => .fin q | none => .nan)
  | _ => (match decPrefixVal l1 with | some q => .fin q | none => .nan)

/-- JS `String.prototype.split(":")`. -/
def splitOnColon : List Char → List (List Char)
  | [] => [[]]
  | c :: rest =>
    match splitOnColon rest with
    | [] => [[c]]
    | h :: t => if c = ':' then [] :: h :: t else (c :: h) :: t

/-- The `value`-token branch of `Tone.Time.prototype._parsePrimary` (lines
297-316): convert `token.value` according to `token.name` (integer units via
`parseInt`, seconds and hertz via `parseInt`, transport via `split(":")` and
`parseFloat`; any other name keeps the raw string) and build
`Tone.Time(value, units)`. -/
def valueTokenToTime (tok : Token) : TimeVal :=
  let units := tok.name
  let value : JSVal :=
    if units = some "m" ∨ units = some "n" ∨ units = some "t" ∨ units = some "i" then
      .num (parseIntJS tok.value)
    else if units = some "s" ∨ units = some "hz" then
      .num (parseIntJS tok.value)
    else if units = some "tr" then
      .arr ((splitOnColon tok.value).map parseFloatJS)
    else .str (String.mk tok.value)
  mkTime (some value) units

/-- A node of the parse tree built by `_parseExpression`/`_parseUnary`:
either a `Tone.Time` leaf from `_parsePrimary`, a binary node
`{type: token.name, args: [left, right]}`, or a unary node
`{operator: token.value, method: token.type, args: [expr]}` (the `method`
field is always `undefined` since tokens have no `type` property, and a
unary node has no `type` property and no `args[1]`). -/
inductive PTree where
  | leaf (t : TimeVal)
  | node (type : Option String) (left right : PTree)
  | unNode (operator : List Char) (arg : PTree)

/-- The control state of the recursive-descent parser: which of the three
mutually recursive source functions is executing.  `expr p` is
`_parseExpression(lexer, p)` after the default `precedence = 5` has been
filled in, `bloop p e` is its `while` loop with running expression `e`,
`unary` is `_parseUnary` and `primary` is `_parsePrimary`. -/
inductive PMode where
  | expr (p : Int)
  | bloop (p : Int) (e : PTree)
  | unary
  | primary

/-- The parser, one source function per `PMode` case (fuel only bounds the
recursion depth of the embedding; `"InternalFuel"` is unreachable for the
budgets used below).  `_parseExpression` descends to `precedence - 1` (to
`_parseUnary` below 0), then folds `while (token && token.group === "binary"
&& token.precedence === precedence)`, recursing for the right operand at the
same precedence.  `_parseUnary` consumes a unary token and recurses (the
`if (token.name === Tone.Time.Type.Negate)` conditional in the source has an
empty body — and `Type.Negate` is not even a defined enum member — so it is
a no-op).  `_parsePrimary` accepts a value token or a parenthesized
expression (re-entering `_parseExpression` with the default precedence 5). -/
def parseStep : ℕ → PMode → List Token → Except String (PTree × List Token)
  | 0, _, _ => .error "InternalFuel"
  | fuel + 1, .expr p, ts =>
    (match (if p < 0 then parseStep fuel .unary ts
            else parseStep fuel (.expr (p - 1)) ts) with
     | .error m => .error m
     | .ok (e, ts1) => parseStep fuel (.bloop p e) ts1)
  | fuel + 1, .bloop p e, ts =>
    (match ts with
     | tok :: rest =>
       if tok.group = "binary" then
         if tok.precedence = some p then
           (match parseStep fuel (.expr p) rest with
            | .error m => .error m
            | .ok (rhs, ts2) =>
              parseStep fuel (.bloop p (.node tok.name e rhs)) ts2)
         else .ok (e, ts)
       else .ok (e, ts)
     | [] => .ok (e, ts))
  | fuel + 1, .unary, ts =>
    (match ts with
     | tok :: rest =>
       if tok.group = "unary" then
         (match parseStep fuel .unary rest with
          | .error m => .error m
          | .ok (e, ts2) => .ok (.unNode tok.value e, ts2))
       else parseStep fuel .primary ts
     | [] => parseStep fuel .primary ts)
  | fuel + 1, .primary, ts =>
    (match ts with
     | [] => .error "Unexpected termination of expression"
     | tok :: rest =>
       if tok.group = "value" then .ok (.leaf (valueTokenToTime tok), rest)
       else if tok.group = "glue" ∧ tok.value = ['('] then
         (match parseStep fuel (.expr 5) rest with
          | .error m => .error m
          | .ok (e, ts2) =>
            match ts2 with
            | tok2 :: rest2 =>
              if tok2.group = "glue" ∧ tok2.value = [')'] then .ok (e, rest2)
              else .error "Expected )"
            | [] => .error "Expected )")
       else .error ("Parse error, cannot process token " ++ String.mk tok.value))

/-- `_parseExpression(lexer)` with the argument defaulted to 5 by
`isUndef(precedence)`. -/
def parseExprTop (ts : List Token) : Except String (PTree × List Token) :=
  parseStep (ts.length * 10 + 16) (.expr 5) ts

/-- Tokenize and parse: the first two steps of `_parseTree`, before the
materialization call.  Used to state properties of the parse tree itself. -/
def parseOne (s : String) : Except String PTree :=
  match tokenize s with
  | .error m => .error m
  | .ok ts =>
    match parseExprTop ts with
    | .error m => .error m
    | .ok r => .ok r.1

/-- The property reads `x.args[0]`, `x.args[1]`, `x.type` performed by
`_traverseTree` on a non-`Time` operand: on a `Tone.Time` leaf `.args` is
`undefined` and indexing it throws a `TypeError`; on `undefined` reading
`.args` itself throws; a binary node yields its children and type; a unary
node yields `args[0] = expr`, `args[1] = undefined`, `type = undefined`. -/
def argsOf : Option PTree → Except String (Option PTree × Option PTree × Option String)
  | none => .error "TypeError"
  | some (.leaf _) => .error "TypeError"
  | some (.node ty l r) => .ok (some l, some r, ty)
  | some (.unNode _ a) => .ok (some a, none, none)

/-- `Tone.Time.prototype._traverseTree(left, right, exprType)`: when both
arguments are `Tone.Time` instances, push `right` onto `left` with
`exprType` and return `left`; otherwise recurse into the `args` of each (the
reads throw for leaves and `undefined`) and fall off the end, returning
`undefined`. -/
def traverseTree : ℕ → Option PTree → Option PTree → Option String →
    Except String (Option PTree)
  | 0, _, _, _ => .error "InternalFuel"
  | fuel + 1, left, right, ty =>
    match left, right with
    | some (.leaf lt), some (.leaf rt) =>
        .ok (some (.leaf (pushExpr lt (.inl rt) ty none)))
    | _, _ =>
      (match argsOf left with
       | .error m => .error m
       | .ok (l0, l1, lty) =>
         match traverseTree fuel l0 l1 lty with
         | .error m => .error m
         | .ok left1 =>
           match argsOf right with
           | .error m => .error m
           | .ok (r0, r1, rty) =>
             match traverseTree fuel r0 r1 rty with
             | .error m => .error m
             | .ok right1 =>
               match traverseTree fuel left1 right1 none with
               | .error m => .error m
               | .ok _ => .ok none)

/-- `Tone.Time.prototype._parseTree(exprString)`: tokenize, parse, then call
`this._traverseTree(tree)` — with a single argument, so `right` and
`exprType` are `undefined` — and return `tree` (the `debugger` statement and
`console.log` are no-ops, and the traversal result `res` is discarded). -/
def parseTree (s : String) : Except String PTree :=
  match tokenize s with
  | .error m => .error m
  | .ok ts =>
    match parseExprTop ts with
    | .error m => .error m
    | .ok r =>
      match traverseTree 64 (some r.1) none none with
      | .error m => .error m
      | .ok _ => .ok r.1

/-! ## The fixed Tempo Context used by the concrete claims -/

/-- The Tempo Context fixed by the spec's testable properties: BPM 120,
time-signature numerator 4, PPQ 192. -/
def ctx120 : Ctx := some { bpm := 120, PPQ := 192, timeSignature := 4 }

/-! ## Claim C1 -/

/-- C1 (code bug): for the grammar's literal forms, the full pipeline
`_parseTree` — tokenize, parse, materialize — never yields a Time Value:
`_traverseTree` is invoked with a single argument and dereferences `.args`
of a leaf `Tone.Time`, throwing a `TypeError` for `"4n"` (and every other
literal).  Bypassing the broken materialization, tokenize-and-parse yields
the expected leaf Time Values, and their evaluation under BPM=120,
signature=4, PPQ=192 follows the code's unit formulas — under which `"4n"`
evaluates to `beatInSeconds * 4 = 2` seconds, not the `0.5` the claim
states, and `"1m"` evaluates to `NaN` (the `Measure` branch multiplies by
the unassigned hoisted `beatTime` and indexes a scalar). -/
theorem c1_parse_tree_throws :
    parseTree "4n" = .error "TypeError" ∧
    parseOne "4n" = .ok (.leaf (.mk (.num (.fin 4)) (some "n") [])) ∧
    evalTV (.mk (.num (.fin 4)) (some "n") []) ctx120 none 0 = .num (.fin 2) ∧
    evalTV (.mk (.num (.fin 4)) (some "n") []) ctx120 none 0 ≠ .num (.fin (1/2)) ∧
    parseOne "8t" = .ok (.leaf (.mk (.num (.fin 8)) (some "t") [])) ∧
    evalTV (.mk (.num (.fin 8)) (some "t") []) ctx120 none 0 = .num (.fin (8/3)) ∧
    parseOne "1m" = .ok (.leaf (.mk (.num (.fin 1)) (some "m") [])) ∧
    evalTV (.mk (.num (.fin 1)) (some "m") []) ctx120 none 0 = .num .nan ∧
    parseOne "3i" = .ok (.leaf (.mk (.num (.fin 3)) (some "i") [])) ∧
    evalTV (.mk (.num (.fin 3)) (some "i") []) ctx120 none 0 = .num (.fin (1/128)) ∧
    parseOne "2hz" = .ok (.leaf (.mk (.num (.fin 2)) (some "hz") [])) ∧
    evalTV (.mk (.num (.fin 2)) (some "hz") []) ctx120 none 0 = .num (.fin (1/2)) ∧
    parseOne "1:2:0" = .ok (.leaf (.mk (.arr [.fin 1, .fin 2, .fin 0]) (some "tr") [])) ∧
    evalTV (.mk (.arr [.fin 1, .fin 2, .fin 0]) (some "tr") []) ctx120 none 0
      = .num (.fin 3) ∧
    parseOne "7" = .ok (.leaf (.mk (.num (.fin 7)) (some "s") [])) ∧
    evalTV (.mk (.num (.fin 7)) (some "s") []) ctx120 none 0 = .num (.fin 7) ∧
    parseTree "1:2:0" = .error "TypeError" := by
  refine ⟨rfl, rfl, ?_, ?_, rfl, ?_, rfl, ?_, rfl, ?_, rfl, ?_, rfl, ?_, rfl, rfl, rfl⟩ <;>
    (simp [evalTV, evalGo, evalSwitch, evalValueFn, jsMul, jsAdd, jsDiv, toNumber,
           numMul, numAdd, numDiv, beatInSeconds, tickInSeconds, timeSignatureOf,
           jsIndex, ctx120]) <;> norm_num

/-! ## Claim C5 -/

/-- C5 (code bug): with no transport attached, the parsed literals `"4n"`
and `"3i"` evaluate to `0` and a seconds value of magnitude 2 evaluates to
`2`, as the claim says — but the parsed literal `"1m"` evaluates to `NaN`,
not `0`, because the `Measure` branch of `_evalValue` multiplies by the
unassigned hoisted `beatTime` variable and reads `this._value[0]` of a
scalar. -/
theorem c5_no_transport_eval :
    parseOne "4n" = .ok (.leaf (.mk (.num (.fin 4)) (some "n") [])) ∧
    evalTV (.mk (.num (.fin 4)) (some "n") []) none none 0 = .num (.fin 0) ∧
    parseOne "3i" = .ok (.leaf (.mk (.num (.fin 3)) (some "i") [])) ∧
    evalTV (.mk (.num (.fin 3)) (some "i") []) none none 0 = .num (.fin 0) ∧
    parseOne "1m" = .ok (.leaf (.mk (.num (.fin 1)) (some "m") [])) ∧
    evalTV (.mk (.num (.fin 1)) (some "m") []) none none 0 = .num .nan ∧
    evalTV (mkTime (some (.num (.fin 2))) (some "s")) none none 0 = .num (.fin 2) := by
  refine ⟨rfl, ?_, rfl, ?_, rfl, ?_, ?_⟩ <;>
    simp [evalTV, evalGo, evalSwitch, evalValueFn, jsMul, jsAdd, jsDiv, toNumber,
          numMul, numAdd, numDiv, beatInSeconds, tickInSeconds, timeSignatureOf,
          jsIndex, mkTime, defaultArgVal]

/-! ## Claim C9 -/

/-- C9 counterexample: a Hertz Time Value of magnitude 0 does not fail —
its evaluation silently returns JS `Infinity` (the claim asserts an
ArithmeticError is raised rather than Infinity being returned). -/
theorem c9_zero_divide_counterexample :
    evalTV (.mk (.num (.fin 0)) (some "hz") []) ctx120 none 0 = .num .inf := by
  simp [evalTV, evalGo, evalSwitch, evalValueFn, jsDiv, toNumber, numDiv, ctx120]

/-- C9 amended: `eval` raises nothing; a zero-magnitude Hertz value yields
`Infinity`, a chained Divide or Quantize whose operand evaluates to 0 yields
`Infinity` on a positive running value and `NaN` on a zero running value —
the non-finite number is returned silently, exactly the original behavior
the spec's §7 notes. -/
theorem c9_nonfinite_results :
    evalTV (.mk (.num (.fin 0)) (some "hz") []) ctx120 none 0 = .num .inf ∧
    evalTV (.mk (.num (.fin 1)) (some "s")
      [(some "/", .mk (.num (.fin 0)) (some "s") [])]) ctx120 none 0 = .num .inf ∧
    evalTV (.mk (.num (.fin 1)) (some "s")
      [(some "@", .mk (.num (.fin 0)) (some "s") [])]) ctx120 none 0 = .num .inf ∧
    evalTV (.mk (.num (.fin 0)) (some "s")
      [(some "/", .mk (.num (.fin 0)) (some "s") [])]) ctx120 none 0 = .num .nan := by
  refine ⟨?_, ?_, ?_, ?_⟩ <;>
    simp [evalTV, evalGo, evalSwitch, evalValueFn, jsDiv, toNumber, numDiv, ctx120]

/-! ## Claim C2 -/

/-- C2: the public constructor stores `val` unchanged (any string expression
included), defaults an undefined `val` to the `"now"` sentinel, starts with
an empty `_expressions` list (the `_parseExpr` call is commented out, so the
tokenizer and parser are never invoked and no tree is built), and evaluating
a constructed value whose units tag matches no case of the `_evalValue`
switch — any tag outside the seven-unit enum, or no tag at all — returns 0. -/
theorem c2_constructor_stores_raw :
    (∀ (v : JSVal) (u : Option String), mkTime (some v) u = .mk v u []) ∧
    (∀ u : Option String, mkTime none u = .mk (.str "now") u []) ∧
    (∀ (v : JSVal) (u : String) (c : Ctx) (n : Option ℚ) (f : ℚ),
        u ∉ ["s", "m", "n", "t", "i", "hz", "tr"] →
        evalTV (mkTime (some v) (some u)) c n f = .num (.fin 0)) ∧
    (∀ (v : JSVal) (c : Ctx) (n : Option ℚ) (f : ℚ),
        evalTV (mkTime (some v) none) c n f = .num (.fin 0)) := by
  refine ⟨fun v u => rfl, fun u => rfl, ?_, ?_⟩
  · intro v u c n f h
    simp only [List.mem_cons, List.not_mem_nil, or_false, not_or] at h
    obtain ⟨h1, h2, h3, h4, h5, h6, h7⟩ := h
    simp [evalTV, evalGo, evalValueFn, mkTime, defaultArgVal, h1, h2, h3, h4, h5, h6, h7]
  · intro v c n f
    simp [evalTV, evalGo, evalValueFn, mkTime, defaultArgVal]

/-- C2 witness: the unparsed-string instance `Tone.Time("4n+1m@8n", "x")`
evaluates to 0. -/
theorem c2_constructor_stores_raw_witness :
    evalTV (mkTime (some (.str "4n+1m@8n")) (some "x")) ctx120 none 0 = .num (.fin 0) :=
  c2_constructor_stores_raw.2.2.1 (.str "4n+1m@8n") "x" ctx120 none 0 (by decide)

/-! ## Claim C3 -/

/-- C3: `eval` computes the unit base value first (the empty-chain case),
then folds the chained operations left-to-right in insertion order — stated
by appending one operation at the end of an arbitrary chain: Add adds,
Subtract subtracts, Multiply multiplies, Divide divides, Quantize (`"@"`)
divides the running value by the operand's evaluation, and RelativeToNow
(`"now"`) adds `defaultArg referenceNow fresh` (the supplied `referenceNow`
when present, else the ambient clock).  Every operand is evaluated by its
own `eval()` call with no `referenceNow` argument (the `none`), at the
operand's own recursion budget. -/
theorem c3_eval_fold :
    (∀ (fuel : ℕ) (v : JSVal) (u : Option String) (c : Ctx) (n : Option ℚ) (f : ℚ),
        (evalGo (fuel + 1) (.mk v u []) c n f).1 = evalValueFn v u c) ∧
    (∀ (fuel : ℕ) (v : JSVal) (u : Option String)
        (ex : List (Option String × TimeVal)) (op : TimeVal)
        (c : Ctx) (n : Option ℚ) (f : ℚ),
        (evalGo (fuel + 1) (.mk v u (ex ++ [(some "+", op)])) c n f).1
          = jsAdd ((evalGo (fuel + 1) (.mk v u ex) c n f).1)
              ((evalGo fuel op c none f).1)) ∧
    (∀ (fuel : ℕ) (v : JSVal) (u : Option String)
        (ex : List (Option String × TimeVal)) (op : TimeVal)
        (c : Ctx) (n : Option ℚ) (f : ℚ),
        (evalGo (fuel + 1) (.mk v u (ex ++ [(some "-", op)])) c n f).1
          = jsSub ((evalGo (fuel + 1) (.mk v u ex) c n f).1)
              ((evalGo fuel op c none f).1)) ∧
    (∀ (fuel : ℕ) (v : JSVal) (u : Option String)
        (ex : List (Option String × TimeVal)) (op : TimeVal)
        (c : Ctx) (n : Option ℚ) (f : ℚ),
        (evalGo (fuel + 1) (.mk v u (ex ++ [(some "*", op)])) c n f).1
          = jsMul ((evalGo (fuel + 1) (.mk v u ex) c n f).1)
              ((evalGo fuel op c none f).1)) ∧
    (∀ (fuel : ℕ) (v : JSVal) (u : Option String)
        (ex : List (Option String × TimeVal)) (op : TimeVal)
        (c : Ctx) (n : Option ℚ) (f : ℚ),
        (evalGo (fuel + 1) (.mk v u (ex ++ [(some "/", op)])) c n f).1
          = jsDiv ((evalGo (fuel + 1) (.mk v u ex) c n f).1)
              ((evalGo fuel op c none f).1)) ∧
    (∀ (fuel : ℕ) (v : JSVal) (u : Option String)
        (ex : List (Option String × TimeVal)) (op : TimeVal)
        (c : Ctx) (n : Option ℚ) (f : ℚ),
        (evalGo (fuel + 1) (.mk v u (ex ++ [(some "@", op)])) c n f).1
          = jsDiv ((evalGo (fuel + 1) (.mk v u ex) c n f).1)
              ((evalGo fuel op c none f).1)) ∧
    (∀ (fuel : ℕ) (v : JSVal) (u : Option String)
        (ex : List (Option String × TimeVal)) (op : TimeVal)
        (c : Ctx) (n : Option ℚ) (f : ℚ),
        (evalGo (fuel + 1) (.mk v u (ex ++ [(some "now", op)])) c n f).1
          = jsAdd ((evalGo (fuel + 1) (.mk v u ex) c n f).1)
              (.num (.fin (defaultArg n f)))) := by
  refine ⟨?_, ?_, ?_, ?_, ?_, ?_, ?_⟩ <;>
    (intros; simp [evalGo, evalSwitch, List.foldl_append])

/-! ## Claim C10 -/

/-- The `switch` body never replaces the operand: whatever the operation
type, the operand state coming out is the operand state going in, provided
the recursive evaluator `g` preserves its argument. -/
theorem evalSwitch_snd (g : TimeVal → Ctx → Option ℚ → ℚ → JSVal × TimeVal)
    (hg : ∀ t c n f, (g t c n f).2 = t) (c : Ctx) (n : Option ℚ) (f : ℚ)
    (val : JSVal) (ty : Option String) (op : TimeVal) :
    (evalSwitch g c n f val ty op).2 = op := by
  simp only [evalSwitch]
  split_ifs <;> simp [hg]

/-- The `for`-loop of `eval` rebuilds exactly the `_expressions` list it
started from. -/
theorem foldl_track (g : TimeVal → Ctx → Option ℚ → ℚ → JSVal × TimeVal)
    (hg : ∀ t c n f, (g t c n f).2 = t) (c : Ctx) (n : Option ℚ) (f : ℚ) :
    ∀ (exprs : List (Option String × TimeVal)) (val : JSVal)
      (acc : List (Option String × TimeVal)),
      (exprs.foldl (fun acc e =>
          let step := evalSwitch g c n f acc.1 e.1 e.2
          (step.1, acc.2 ++ [(e.1, step.2)])) (val, acc)).2 = acc ++ exprs := by
  intro exprs
  induction exprs with
  | nil => intro val acc; simp
  | cons e rest ih =>
    intro val acc
    simp only [List.foldl_cons]
    rw [ih]
    simp [evalSwitch_snd g hg]

/-- `eval` leaves the receiver — magnitude, units tag and chained-operation
list, recursively — unchanged. -/
theorem evalGo_state : ∀ (fuel : ℕ) (t : TimeVal) (c : Ctx) (n : Option ℚ) (f : ℚ),
    (evalGo fuel t c n f).2 = t := by
  intro fuel
  induction fuel with
  | zero => intro t c n f; rfl
  | succ fuel ih =>
    intro t c n f
    match t with
    | .mk v u exprs =>
      simp only [evalGo]
      rw [foldl_track (evalGo fuel) ih c n f exprs (evalValueFn v u c) []]
      simp

/-- C10 amended: `eval` is a pure read — it leaves the Time Value unchanged
(no memoization, no hidden mutation), and therefore evaluating the value it
leaves behind again, with the same Tempo Context, the same supplied
`referenceNow` and the same ambient clock reading, returns the identical
result.  (The original claim is refuted separately: if the ambient `now()`
clock advances between the two calls, a nested RelativeToNow operand changes
the result even though the supplied `referenceNow` is the same.) -/
theorem c10_eval_pure :
    ∀ (fuel : ℕ) (t : TimeVal) (c : Ctx) (n : Option ℚ) (f : ℚ),
      (evalGo fuel t c n f).2 = t ∧
      (evalGo fuel ((evalGo fuel t c n f).2) c n f).1 = (evalGo fuel t c n f).1 := by
  intro fuel t c n f
  exact ⟨evalGo_state fuel t c n f, by rw [evalGo_state]⟩

/-- C10 counterexample: a Time Value carrying a nested RelativeToNow operand
(`Tone.Time(1).add(Tone.Time(0).fromNow())`), evaluated twice with the same
Tempo Context and the same supplied `referenceNow = 5` but ambient clock
readings 0 and 1, yields different results — because the nested operand is
evaluated by `expr.value.eval()` with no `referenceNow` and falls back to
the ambient `this.now()`. -/
theorem c10_fresh_now_counterexample :
    evalTV (.mk (.num (.fin 1)) (some "s")
        [(some "+", .mk (.num (.fin 0)) none
            [(some "now", .mk (.num (.fin 0)) none [])])]) ctx120 (some 5) 0
    ≠ evalTV (.mk (.num (.fin 1)) (some "s")
        [(some "+", .mk (.num (.fin 0)) none
            [(some "now", .mk (.num (.fin 0)) none [])])]) ctx120 (some 5) 1 := by
  simp [evalTV, evalGo, evalSwitch, evalValueFn, jsAdd, toNumber, numAdd,
        defaultArg, ctx120]

/-! ## Claims C6, C7, C8: tokenizer properties -/

/-- Shape of every token the scanner can produce: the `unary` group is
unreachable (its two patterns duplicate the binary `-` and `+` patterns,
which are tried earlier), and no token is ever named with the Divide
operator `"/"` (its pattern duplicates multiply's `/^\*/`, which is tried
earlier). -/
theorem firstTok_shape : ∀ (e : List Char) (t : Token),
    firstTok patternList e = some t →
    t.group ≠ "unary" ∧ t.name ≠ some "/" := by
  intro e t hf
  simp only [patternList, firstTok] at hf
  repeat' split at hf
  all_goals try contradiction
  all_goals (injection hf with hf; subst hf; exact ⟨by simp, by simp⟩)

/-- The same shape fact, at the `getNextToken` interface. -/
theorem getNextToken_shape : ∀ (e : List Char) (t : Token),
    getNextToken e = .ok t → t.group ≠ "unary" ∧ t.name ≠ some "/" := by
  intro e t h
  unfold getNextToken at h
  cases hf : firstTok patternList e with
  | none => rw [hf] at h; exact absurd h (by simp)
  | some u =>
    rw [hf] at h
    injection h with h
    exact h ▸ firstTok_shape e u hf

/-- C8: the tokenizer never produces a Divide token — the divide entry's
regexp is textually `/^\*/`, identical to multiply's, which is tried first —
so a `'*'` always becomes the Multiply token, and a `'/'` matches no pattern
at all and raises the `SyntaxError`. -/
theorem c8_divide_unreachable :
    (∀ (e : List Char) (t : Token), getNextToken e = .ok t → t.name ≠ some "/") ∧
    (∀ rest : List Char, getNextToken ('*' :: rest) =
      .ok { group := "binary", name := some "*", precedence := some 0,
            value := ['*'] }) ∧
    (∀ rest : List Char, getNextToken ('/' :: rest) =
      .error ("Unexpected token " ++ String.mk ('/' :: rest))) :=
  ⟨fun e t h => (getNextToken_shape e t h).2, fun _ => rfl, fun _ => rfl⟩

/-- C8 witness: the token scanned from `"*"` is the Multiply token and is
not named Divide. -/
theorem c8_divide_unreachable_witness :
    ({ group := "binary", name := some "*", precedence := some 0,
       value := ['*'] } : Token).name ≠ some "/" :=
  c8_divide_unreachable.1 ['*'] _ rfl

/-- C7 counterexample: `"-4n"` does not evaluate to the negation of
`"4n"` — it does not evaluate at all: the leading `-` tokenizes as the
binary Subtract token, `_parseUnary` therefore falls through to
`_parsePrimary`, and the parse throws a SyntaxError. -/
theorem c7_neg_parse_error_counterexample :
    parseOne "-4n" = .error "Parse error, cannot process token -" := rfl

/-- C7 amended: the unary group of the grammar is unreachable (the binary
`-` and `+` patterns are tried first and match the same text), so a leading
`"-"` becomes a binary Subtract token and the expression `"-" ++ s` fails to
parse with `SyntaxError("Parse error, cannot process token -")` instead of
evaluating to a negation; no multiply-by-(-1) materialization exists. -/
theorem c7_unary_unreachable :
    (∀ (e : List Char) (t : Token), getNextToken e = .ok t → t.group ≠ "unary") ∧
    tokenize "-4n" = .ok
      [ { group := "binary", name := some "-", precedence := some 1, value := ['-'] },
        { group := "value", name := some "n", precedence := none, value := ['4', 'n'] } ] ∧
    parseOne "-4n" = .error "Parse error, cannot process token -" :=
  ⟨fun e t h => (getNextToken_shape e t h).1, rfl, rfl⟩

/-- C7 witness: the token scanned from `"-4n"` is in the binary group, not
the unary group. -/
theorem c7_unary_unreachable_witness :
    ({ group := "binary", name := some "-", precedence := some 1,
       value := ['-'] } : Token).group ≠ "unary" :=
  c7_unary_unreachable.1 ['-', '4', 'n'] _ rfl

/-- C6 counterexample: tokenizing `"4x"` does raise a SyntaxError, but its
message names `"x"` — the remainder at the failing position, after the
leading `"4"` matched the bare-seconds pattern — not the whole input
`"4x"` the claim states. -/
theorem c6_error_message_counterexample :
    tokenize "4x" = .error "Unexpected token x" ∧
    "Unexpected token x" ≠ "Unexpected token 4x" :=
  ⟨rfl, by decide⟩

/-- C6 amended: when no pattern matches at the current position, the
tokenizer fails with `SyntaxError("Unexpected token " + remainder)` naming
the (trimmed) remainder at that position, and the failure aborts the whole
tokenization so no partial token list is returned (the error propagates out
of the loop); for the input `"4x"` the leading `"4"` matches the
bare-seconds pattern first, so the remainder named is `"x"`. -/
theorem c6_error_naming :
    (∀ (m : String) (c : Char) (cs : List Char) (fuel : ℕ),
        getNextToken (trimChars (c :: cs)) = .error m →
        tokenizeAux (fuel + 1) (c :: cs) = .error m) ∧
    (∀ e : List Char, firstTok patternList e = none →
        getNextToken e = .error ("Unexpected token " ++ String.mk e)) ∧
    tokenize "4x" = .error "Unexpected token x" := by
  refine ⟨?_, ?_, rfl⟩
  · intro m c cs fuel h
    simp only [tokenizeAux]
    rw [h]
  · intro e h
    simp [getNextToken, h]

/-- C6 witness: the failing-position rules applied at the concrete remainder
`"x"`. -/
theorem c6_error_naming_witness :
    tokenizeAux 1 ['x'] = .error "Unexpected token x" ∧
    getNextToken ['x'] = .error ("Unexpected token " ++ String.mk ['x']) :=
  ⟨c6_error_naming.1 "Unexpected token x" 'x' [] 0 rfl,
   c6_error_naming.2.1 ['x'] rfl⟩

/-! ## Claim C4 -/

/-- C4 counterexample: the parser is not left-associative within a tier —
the token sequence of `"1-2-3"` (both operators in tier 1) parses as
`1 - (2 - 3)`, with the second `-` node as the right child of the first,
not as `(1 - 2) - 3`. -/
theorem c4_left_assoc_counterexample :
    parseOne "1-2-3" =
      .ok (.node (some "-") (.leaf (.mk (.num (.fin 1)) (some "s") []))
            (.node (some "-") (.leaf (.mk (.num (.fin 2)) (some "s") []))
              (.leaf (.mk (.num (.fin 3)) (some "s") [])))) ∧
    (PTree.node (some "-") (.leaf (.mk (.num (.fin 1)) (some "s") []))
        (.node (some "-") (.leaf (.mk (.num (.fin 2)) (some "s") []))
          (.leaf (.mk (.num (.fin 3)) (some "s") [])))
      ≠ PTree.node (some "-")
          (.node (some "-") (.leaf (.mk (.num (.fin 1)) (some "s") []))
            (.leaf (.mk (.num (.fin 2)) (some "s") [])))
          (.leaf (.mk (.num (.fin 3)) (some "s") []))) :=
  ⟨rfl, by simp⟩

/-- C4 amended: within a tier the parser is right-associative — the `while`
loop of `_parseExpression` parses the right operand by recursing at the same
precedence, so `a op1 b op2 c` with `op1`, `op2` of equal precedence parses
as `a op1 (b op2 c)` for arbitrary value tokens `a`, `b`, `c` and binary
tokens of either tier; tier-0 operators do bind tighter than tier-1, so
`"1m+2n*3n"` parses with the `*` node as the right child of the `+` node. -/
theorem c4_right_assoc_and_tiers :
    (∀ (v1 v2 v3 o1 o2 : Token) (p : Int),
        v1.group = "value" → v2.group = "value" → v3.group = "value" →
        o1.group = "binary" → o2.group = "binary" →
        o1.precedence = some p → o2.precedence = some p →
        (p = 0 ∨ p = 1) →
        parseExprTop [v1, o1, v2, o2, v3] =
          .ok (.node o1.name (.leaf (valueTokenToTime v1))
                (.node o2.name (.leaf (valueTokenToTime v2))
                  (.leaf (valueTokenToTime v3))), [])) ∧
    parseOne "1m+2n*3n" =
      .ok (.node (some "+") (.leaf (.mk (.num (.fin 1)) (some "m") []))
            (.node (some "*") (.leaf (.mk (.num (.fin 2)) (some "n") []))
              (.leaf (.mk (.num (.fin 3)) (some "n") [])))) := by
  refine ⟨?_, rfl⟩
  intro v1 v2 v3 o1 o2 p h1 h2 h3 h4 h5 h6 h7 hp
  obtain ⟨g1, n1, p1, s1⟩ := v1
  obtain ⟨g2, n2, p2, s2⟩ := v2
  obtain ⟨g3, n3, p3, s3⟩ := v3
  obtain ⟨go1, no1, po1, so1⟩ := o1
  obtain ⟨go2, no2, po2, so2⟩ := o2
  obtain rfl : g1 = "value" := h1
  obtain rfl : g2 = "value" := h2
  obtain rfl : g3 = "value" := h3
  obtain rfl : go1 = "binary" := h4
  obtain rfl : go2 = "binary" := h5
  obtain rfl : po1 = some p := h6
  obtain rfl : po2 = some p := h7
  rcases hp with rfl | rfl
  · rfl
  · rfl

/-- C4 witness: the right-associativity statement applied to the concrete
token sequence of `"1-2-3"` (tier 1). -/
theorem c4_right_assoc_and_tiers_witness :
    parseExprTop
      [ { group := "value", name := some "s", precedence := none, value := ['1'] },
        { group := "binary", name := some "-", precedence := some 1, value := ['-'] },
        { group := "value", name := some "s", precedence := none, value := ['2'] },
        { group := "binary", name := some "-", precedence := some 1, value := ['-'] },
        { group := "value", name := some "s", precedence := none, value := ['3'] } ] =
      .ok (.node (some "-")
            (.leaf (valueTokenToTime
              { group := "value", name := some "s", precedence := none, value := ['1'] }))
            (.node (some "-")
              (.leaf (valueTokenToTime
                { group := "value", name := some "s", precedence := none, value := ['2'] }))
              (.leaf (valueTokenToTime
                { group := "value", name := some "s", precedence := none, value := ['3'] }))), []) :=
  c4_right_assoc_and_tiers.1 _ _ _ _ _ 1 rfl rfl rfl rfl rfl rfl rfl (Or.inr rfl)
